import Mathlib

/-!
Verification of the llm-cross-referencer aggregator.

Shallow embedding of the two core pieces of the repository:

* the server fan-out handler `src/pages/api/cross-ref.ts` (`handler`), modelled as a
  function from the parsed request body and a description of the three upstream
  provider streams (a `World`) to either an HTTP rejection or a set of possible
  NDJSON output streams, and
* the browser client `src/app/page.tsx` (`Home`), modelled as a state machine over
  `ClientState` driven by the incoming NDJSON events, with the evaluator trigger
  of the `useEffect` at lines 72-95 run after every processed event.

JavaScript truthiness on optional strings is modelled by `jsTruthy`; the JS
`String.prototype.trim` is modelled by `jsTrim` (drop leading and trailing
whitespace), written over `List Char` so that it evaluates inside the kernel.

Concurrency model: each launched provider task writes its events in program
order, one atomic line per event, and tasks interleave arbitrarily.  A list
`out` is a possible response stream (`canEmitB`) iff every event of `out` is
tagged with a launched provider and, for every launched provider, the
subsequence of `out` tagged with it is exactly that task\x27s event sequence.
This is precisely the set of interleavings of the per-task sequences.
-/

namespace CrossRef

/-- JS string trim: drop leading and trailing whitespace (model of
`String.prototype.trim`, written over the character list so that it reduces
in the kernel). -/
def jsTrim (s : String) : String :=
  String.mk (((s.data.dropWhile Char.isWhitespace).reverse.dropWhile Char.isWhitespace).reverse)

/-- JS truthiness of an optional string: `undefined`, `null` and the empty
string are falsy, every other string is truthy. -/
def jsTruthy (o : Option String) : Bool :=
  match o with
  | none => false
  | some s => s ≠ ""

/-- Model of `x || d` for an optional string `x` and a nonempty default `d`:
the JS code falls back to the default when the message is absent or empty. -/
def jsOrElse (o : Option String) (d : String) : String :=
  match o with
  | none => d
  | some s => if s = "" then d else s

/-- The provider tags of the client (`type ModelKey` in `page.tsx`).  The
server type in `cross-ref.ts` is the subset without `cohere`; the handler
never emits a `cohere` event. -/
inductive ModelKey
  | openai
  | anthropic
  | google
  | cohere
deriving DecidableEq

/-- The `type` field of a `NdjsonEvent`: `start | delta | end | error`
(`end` is a Lean keyword, rendered `end_`). -/
inductive EvType
  | start
  | delta
  | end_
  | error
deriving DecidableEq

/-- The wire unit `NdjsonEvent` of `cross-ref.ts` and `page.tsx`. -/
structure NdjsonEvent where
  model : ModelKey
  type : EvType
  text : Option String
  error : Option String
deriving DecidableEq

/-- A `start` event for model `m`. -/
def startEv (m : ModelKey) : NdjsonEvent := ⟨m, .start, none, none⟩

/-- A `delta` event with text `t` for model `m`. -/
def deltaEv (m : ModelKey) (t : String) : NdjsonEvent := ⟨m, .delta, some t, none⟩

/-- An `end` event for model `m`. -/
def endEv (m : ModelKey) : NdjsonEvent := ⟨m, .end_, none, none⟩

/-- An `error` event with message `msg` for model `m`. -/
def errEv (m : ModelKey) (msg : String) : NdjsonEvent := ⟨m, .error, none, some msg⟩

/-! ### Server model: `src/pages/api/cross-ref.ts` -/

/-- A thrown JS error as observed by the catch blocks: optional `message`,
optional `status` and `statusCode` fields. -/
structure JsError where
  message : Option String
  status : Option Nat
  statusCode : Option Nat
deriving DecidableEq

/-- The `delta` part of a native Anthropic stream event. -/
structure AnthropicDelta where
  type : String
  text : Option String
deriving DecidableEq

/-- A native Anthropic stream event (`event` in the `for await` loop). -/
structure AnthropicStreamEvent where
  type : String
  delta : Option AnthropicDelta
deriving DecidableEq

/-- The observed behaviour of one Anthropic upstream call: the native events
delivered before it either completed (`failure = none`) or threw
(`failure = some e`, covering failure before the first chunk as well). -/
structure AnthropicUpstream where
  events : List AnthropicStreamEvent
  failure : Option JsError
deriving DecidableEq

/-- A native OpenAI stream part; `content` is `part.choices[0].delta.content`
(absent when any link of that optional chain is missing). -/
structure OpenAIPart where
  content : Option String
deriving DecidableEq

/-- The observed behaviour of one OpenAI upstream call. -/
structure OpenAIUpstream where
  parts : List OpenAIPart
  failure : Option JsError
deriving DecidableEq

/-- A native Google stream chunk; `text` is the result of `chunk.text()`. -/
structure GoogleChunk where
  text : String
deriving DecidableEq

/-- The observed behaviour of one Google upstream call. -/
structure GoogleUpstream where
  chunks : List GoogleChunk
  failure : Option JsError
deriving DecidableEq

/-- The behaviour of the three upstream providers for one request. -/
structure World where
  anthropic : AnthropicUpstream
  openai : OpenAIUpstream
  google : GoogleUpstream
deriving DecidableEq

/-- The `apiKeys` object of the request body (each key optional). -/
structure ApiKeysBody where
  anthropic : Option String
  openai : Option String
  google : Option String
deriving DecidableEq

/-- The parsed request: method plus body fields used by the handler.  The
`selectedModels` field only selects the upstream model identifier sent to the
provider SDK; it is unobservable in the emitted event stream and therefore
omitted. -/
structure Request where
  method : String
  prompt : Option String
  apiKeys : Option ApiKeysBody
deriving DecidableEq

/-- Line 65: the trimmed optional Anthropic key, `apiKeys?.anthropic?.trim()`. -/
def anthropicApiKey (req : Request) : Option String :=
  (req.apiKeys.bind (fun ks => ks.anthropic)).map jsTrim

/-- Line 66: the trimmed optional OpenAI key, `apiKeys?.openai?.trim()`. -/
def openaiApiKey (req : Request) : Option String :=
  (req.apiKeys.bind (fun ks => ks.openai)).map jsTrim

/-- Line 67: the trimmed optional Google key, `apiKeys?.google?.trim()`. -/
def googleApiKey (req : Request) : Option String :=
  (req.apiKeys.bind (fun ks => ks.google)).map jsTrim

/-- Line 71: truthiness of `anthropicApiKey` - the Anthropic task is launched. -/
def anthropicActive (req : Request) : Bool := jsTruthy (anthropicApiKey req)

/-- Line 107: truthiness of `openaiApiKey` - the OpenAI task is launched. -/
def openaiActive (req : Request) : Bool := jsTruthy (openaiApiKey req)

/-- Line 144: truthiness of `googleApiKey` - the Google task is launched. -/
def googleActive (req : Request) : Bool := jsTruthy (googleApiKey req)

/-- Whether the handler launches a task for a given provider key.  `cohere`
exists only in the client type and is never launched by the server. -/
def activeB (req : Request) : ModelKey → Bool
  | .anthropic => anthropicActive req
  | .openai => openaiActive req
  | .google => googleActive req
  | .cohere => false

/-- Lines 86-91: a native Anthropic event produces a `delta` iff its type is
`content_block_delta`, its `delta.type` is `text_delta` and its `delta.text`
is a truthy (nonempty) string. -/
def anthropicDeltaText (ev : AnthropicStreamEvent) : Option String :=
  if ev.type = "content_block_delta" then
    match ev.delta with
    | some d =>
      if d.type = "text_delta" then
        match d.text with
        | some t => if t = "" then none else some t
        | none => none
      else none
    | none => none
  else none

/-- Lines 122-125: an OpenAI part produces a `delta` iff
`part.choices[0].delta.content` is a string of positive length. -/
def openaiDeltaText (p : OpenAIPart) : Option String :=
  match p.content with
  | some s => if s.length > 0 then some s else none
  | none => none

/-- Lines 155-157: a Google chunk produces a `delta` iff `chunk.text()` is
truthy (nonempty). -/
def googleDeltaText (c : GoogleChunk) : Option String :=
  if c.text = "" then none else some c.text

/-- The fixed rewrite of a recognised OpenAI rate-limit failure (line 131). -/
def openaiQuotaMessage : String :=
  "OpenAI: quota exceeded (429). Check plan/billing or use a smaller model like gpt-4o-mini."

/-- Lines 128-137: the message of the OpenAI `error` event.  A recognised 429
status (on `status` or `statusCode`) is rewritten to the fixed quota message;
otherwise the raw `err.message` is passed through, defaulting when falsy. -/
def openaiErrMsg (e : JsError) : String :=
  if e.status = some 429 ∨ e.statusCode = some 429 then openaiQuotaMessage
  else jsOrElse e.message "OpenAI error"

/-- The terminal event of the Anthropic task (lines 94-101): `end` when the
native stream completed, otherwise one `error` with `err.message` or the
default. -/
def anthropicFinal (u : AnthropicUpstream) : NdjsonEvent :=
  match u.failure with
  | none => endEv .anthropic
  | some e => errEv .anthropic (jsOrElse e.message "Anthropic error")

/-- The event sequence written by the Anthropic task (lines 73-102):
`start` first, then one `delta` per accepted native chunk, then the terminal. -/
def anthropicTrace (u : AnthropicUpstream) : List NdjsonEvent :=
  startEv .anthropic ::
    ((u.events.filterMap anthropicDeltaText).map (deltaEv .anthropic) ++ [anthropicFinal u])

/-- The terminal event of the OpenAI task (lines 127-137). -/
def openaiFinal (u : OpenAIUpstream) : NdjsonEvent :=
  match u.failure with
  | none => endEv .openai
  | some e => errEv .openai (openaiErrMsg e)

/-- The event sequence written by the OpenAI task (lines 109-139). -/
def openaiTrace (u : OpenAIUpstream) : List NdjsonEvent :=
  startEv .openai ::
    ((u.parts.filterMap openaiDeltaText).map (deltaEv .openai) ++ [openaiFinal u])

/-- The terminal event of the Google task (lines 159-166). -/
def googleFinal (u : GoogleUpstream) : NdjsonEvent :=
  match u.failure with
  | none => endEv .google
  | some e => errEv .google (jsOrElse e.message "Google error")

/-- The event sequence written by the Google task (lines 146-167). -/
def googleTrace (u : GoogleUpstream) : List NdjsonEvent :=
  startEv .google ::
    ((u.chunks.filterMap googleDeltaText).map (deltaEv .google) ++ [googleFinal u])

/-- The event sequence of the task for a given provider key (junk value `[]`
for `cohere`, which is never launched). -/
def traceFor (w : World) : ModelKey → List NdjsonEvent
  | .anthropic => anthropicTrace w.anthropic
  | .openai => openaiTrace w.openai
  | .google => googleTrace w.google
  | .cohere => []

/-- The tasks launched by the handler (lines 69-170), in push order, each
paired with its event sequence. -/
def tasks (req : Request) (w : World) : List (ModelKey × List NdjsonEvent) :=
  (if anthropicActive req then [(ModelKey.anthropic, anthropicTrace w.anthropic)] else []) ++
  (if openaiActive req then [(ModelKey.openai, openaiTrace w.openai)] else []) ++
  (if googleActive req then [(ModelKey.google, googleTrace w.google)] else [])

/-- The observable outcome of the handler: either a plain HTTP response
(the 405 and 400 rejections; the body of the 400 is the JSON object with the
given error string) or a streamed NDJSON response produced by the launched
tasks. -/
inductive HandlerOutcome
  | response (status : Nat) (body : String)
  | streamed (ts : List (ModelKey × List NdjsonEvent))
deriving DecidableEq

/-- The handler of `src/pages/api/cross-ref.ts` (lines 19-179).  Non-POST
methods are rejected with 405; a missing prompt or one that is the empty
string (`!prompt`, line 41 - no trimming) is rejected with 400; otherwise the
response is streamed and the tasks are launched. -/
def handler (req : Request) (w : World) : HandlerOutcome :=
  if req.method ≠ "POST" then .response 405 "Method Not Allowed"
  else
    match req.prompt with
    | none => .response 400 "Missing prompt"
    | some p =>
      if p = "" then .response 400 "Missing prompt"
      else .streamed (tasks req w)

/-- Whether `out` is a possible response stream of the handler: the handler reached
streaming, every emitted event is tagged with a launched provider, and for
every launched task the subsequence of `out` carrying its tag is exactly the
event sequence of that task.  Since tags are distinct across tasks and each
task writes its events in order (one atomic line per event, line 55-57), this
characterises exactly the interleavings of the task sequences, with the
stream closed only after `Promise.all(tasks)` (lines 174-178). -/
def canEmitB (req : Request) (w : World) (out : List NdjsonEvent) : Bool :=
  match handler req w with
  | .streamed ts =>
    out.all (fun e => ts.any (fun p => decide (e.model = p.1))) &&
    ts.all (fun p => decide (out.filter (fun e => decide (e.model = p.1)) = p.2))
  | .response _ _ => false

/-! ### Client model: `src/app/page.tsx` -/

/-- A record indexed by the four client provider keys
(`Record ModelKey a` in `page.tsx`). -/
structure KeyMap (α : Type) where
  openai : α
  anthropic : α
  google : α
  cohere : α
deriving DecidableEq

/-- Read the field of a `KeyMap` for a key. -/
def KeyMap.get {α : Type} (f : KeyMap α) : ModelKey → α
  | .openai => f.openai
  | .anthropic => f.anthropic
  | .google => f.google
  | .cohere => f.cohere

/-- Replace the field of a `KeyMap` for a key. -/
def KeyMap.set {α : Type} (f : KeyMap α) : ModelKey → α → KeyMap α
  | .openai, v => { f with openai := v }
  | .anthropic, v => { f with anthropic := v }
  | .google, v => { f with google := v }
  | .cohere, v => { f with cohere := v }

/-- The client key store from `ApiKeysContext`: exactly three string fields
(defaulting to the empty string); indexing it with `cohere` yields
`undefined`. -/
structure ApiKeys where
  anthropic : String
  openai : String
  google : String
deriving DecidableEq

/-- Indexing `apiKeys[k]` on the context object: a string for the three stored
providers, `undefined` for `cohere`. -/
def ApiKeys.get (ks : ApiKeys) : ModelKey → Option String
  | .openai => some ks.openai
  | .anthropic => some ks.anthropic
  | .google => some ks.google
  | .cohere => none

/-- The per-provider lifecycle status of the client. -/
inductive ModelStatus
  | pending
  | streaming
  | finished
  | error
deriving DecidableEq

/-- A status is terminal iff it is `finished` or `error`. -/
def terminalStatus : ModelStatus → Bool
  | .finished => true
  | .error => true
  | _ => false

/-- The React state of `Home` relevant to the claims. -/
structure ClientState where
  messages : KeyMap String
  errors : KeyMap (Option String)
  evaluatorResult : String
  evaluatorLoading : Bool
  evaluatorRan : Bool
  modelStatus : KeyMap ModelStatus
deriving DecidableEq

/-- The fixed provider ordering of the client (`allModels`, lines 52-60). -/
def allModelKeys : List ModelKey := [.openai, .anthropic, .google, .cohere]

/-- Truthiness of `apiKeys[model.key]?.trim()`: the provider is shown/active on
the client (lines 63-65). -/
def activeClientB (ks : ApiKeys) (k : ModelKey) : Bool :=
  jsTruthy ((ks.get k).map jsTrim)

/-- The list `availableModels` (lines 63-65): the active providers in the fixed
ordering. -/
def availableKeys (ks : ApiKeys) : List ModelKey :=
  allModelKeys.filter (activeClientB ks)

/-- The state set by `onSubmit` before the stream is consumed
(lines 100-122): all text and errors cleared, evaluator state reset, status
`pending` for active providers and `finished` for inactive ones. -/
def resetState (ks : ApiKeys) : ClientState where
  messages := ⟨"", "", "", ""⟩
  errors := ⟨none, none, none, none⟩
  evaluatorResult := ""
  evaluatorLoading := false
  evaluatorRan := false
  modelStatus :=
    ⟨if activeClientB ks .openai then .pending else .finished,
     if activeClientB ks .anthropic then .pending else .finished,
     if activeClientB ks .google then .pending else .finished,
     if activeClientB ks .cohere then .pending else .finished⟩

/-- The submit handler `onSubmit` (lines 97-122) up to the point where the new stream is
consumed: a whitespace-only prompt is a no-op (line 99), otherwise the state
is reset. -/
def onSubmit (s : ClientState) (p : String) (ks : ApiKeys) : ClientState :=
  if jsTrim p = "" then s else resetState ks

/-- Processing of one parsed NDJSON line by the reader loop of `onSubmit`
(lines 147-161): `start` sets the status to `streaming`, a truthy `delta`
text is appended to the message of its model, `end` sets `finished`, a truthy
`error` records the message and sets the status to `error`. -/
def applyEvent (s : ClientState) (e : NdjsonEvent) : ClientState :=
  match e.type with
  | .start => { s with modelStatus := s.modelStatus.set e.model .streaming }
  | .delta =>
    match e.text with
    | some t =>
      if t = "" then s
      else { s with messages := s.messages.set e.model (s.messages.get e.model ++ t) }
    | none => s
  | .end_ => { s with modelStatus := s.modelStatus.set e.model .finished }
  | .error =>
    match e.error with
    | some msg =>
      if msg = "" then s
      else { s with errors := s.errors.set e.model (some msg),
                    modelStatus := s.modelStatus.set e.model .error }
    | none => s

/-- The evaluator condition on the observed statuses (lines 73-79): at least
one active provider, every active provider terminal, and at least one active
provider `finished`. -/
def triggerBase (ks : ApiKeys) (s : ClientState) : Bool :=
  !(availableKeys ks).isEmpty &&
  (availableKeys ks).all (fun k => terminalStatus (s.modelStatus.get k)) &&
  (availableKeys ks).any (fun k => decide (s.modelStatus.get k = .finished))

/-- The full guard of the evaluator trigger (line 90): the status condition
together with the one-shot flag and the loading flag. -/
def triggerCond (ks : ApiKeys) (s : ClientState) : Bool :=
  triggerBase ks s && !s.evaluatorRan && !s.evaluatorLoading

/-- The filter of `validResponses` (line 178): `!errors[key]` (JS-falsy
recorded error) and accumulated text nonempty after trim. -/
def validPred (s : ClientState) (k : ModelKey) : Bool :=
  !jsTruthy (s.errors.get k) && jsTrim (s.messages.get k) ≠ ""

/-- The list `validResponses` (lines 176-178): the active providers, in the fixed
ordering, passing `validPred`, each paired with its accumulated text (the
display label used for the evaluation prompt is omitted). -/
def validResponses (ks : ApiKeys) (s : ClientState) : List (ModelKey × String) :=
  (availableKeys ks).filterMap
    (fun k => if validPred s k then some (k, s.messages.get k) else none)

/-- The provider targeted by the evaluation request (line 186:
`validResponses[0].key`), `none` when `evaluateResults` returns without
issuing a request (line 180). -/
def evalTarget (ks : ApiKeys) (s : ClientState) : Option ModelKey :=
  (validResponses ks s).head?.map Prod.fst

/-- The synchronous state effect of firing the trigger (lines 92-93 and
175-182): `evaluatorRan` is set; when a request is issued
(`validResponses` nonempty) `evaluatorLoading` is set as well, and when
`evaluateResults` returns early nothing else changes. -/
def evalFire (ks : ApiKeys) (s : ClientState) : ClientState :=
  match evalTarget ks s with
  | none => { s with evaluatorRan := true }
  | some _ => { s with evaluatorRan := true, evaluatorLoading := true }

/-- The result of running the client over a list of incoming events: final
state, number of times the evaluator trigger fired, and the targets of the
evaluation requests issued, in order. -/
structure RunResult where
  state : ClientState
  fires : Nat
  requests : List ModelKey
deriving DecidableEq

/-- Run the client over the incoming events: each event is processed by
`applyEvent` and then the evaluator `useEffect` is (re-)run on the updated
state, firing iff `triggerCond` holds. -/
def runEvents (ks : ApiKeys) (s : ClientState) : List NdjsonEvent → RunResult
  | [] => ⟨s, 0, []⟩
  | e :: rest =>
    let s1 := applyEvent s e
    if triggerCond ks s1 then
      let r := runEvents ks (evalFire ks s1) rest
      ⟨r.state, r.fires + 1, (evalTarget ks s1).toList ++ r.requests⟩
    else
      runEvents ks s1 rest

/-- The accumulation loop of `evaluateResults` over the evaluation stream
(lines 228-247): starting from the empty summary, append the text of each
`delta` event with truthy text whose model equals the targeted evaluator
model, ignoring every other event. -/
def evalAccumulate (t : ModelKey) (evs : List NdjsonEvent) : String :=
  evs.foldl
    (fun acc e =>
      if decide (e.type = .delta) && jsTruthy e.text && decide (e.model = t) then
        acc ++ e.text.getD ""
      else acc)
    ""

/-- Modelled from the words of claim C6 (refinement comparison only, not from
the source): the first provider, in the original fixed ordering, with no
recorded error and non-empty accumulated text. -/
def claimFirstSuccessful (ks : ApiKeys) (s : ClientState) : Option ModelKey :=
  (availableKeys ks).find?
    (fun k => decide (s.errors.get k = none) && decide (s.messages.get k ≠ ""))

/-! ### Helper lemmas: server -/

theorem KeyMap.get_set {α : Type} (f : KeyMap α) (k k' : ModelKey) (v : α) :
    (f.set k v).get k' = if k' = k then v else f.get k' := by
  cases k <;> cases k' <;> simp [KeyMap.get, KeyMap.set]

theorem handler_streamed {req : Request} {w : World} {ts : List (ModelKey × List NdjsonEvent)}
    (h : handler req w = .streamed ts) : ts = tasks req w := by
  unfold handler at h
  split at h
  · exact absurd h (by simp)
  · split at h
    · exact absurd h (by simp)
    · split at h
      · exact absurd h (by simp)
      · injection h with h'
        exact h'.symm

theorem mem_tasks_active {req : Request} {w : World} {p : ModelKey × List NdjsonEvent}
    (h : p ∈ tasks req w) : activeB req p.1 = true ∧ p.2 = traceFor w p.1 := by
  unfold tasks at h
  rcases List.mem_append.1 h with h' | h'
  · rcases List.mem_append.1 h' with h'' | h''
    · by_cases ha : anthropicActive req
      · simp [ha] at h''
        subst h''
        exact ⟨ha, rfl⟩
      · simp [ha] at h''
    · by_cases ho : openaiActive req
      · simp [ho] at h''
        subst h''
        exact ⟨ho, rfl⟩
      · simp [ho] at h''
  · by_cases hg : googleActive req
    · simp [hg] at h'
      subst h'
      exact ⟨hg, rfl⟩
    · simp [hg] at h'

theorem active_mem_tasks {req : Request} (w : World) {m : ModelKey}
    (h : activeB req m = true) : (m, traceFor w m) ∈ tasks req w := by
  cases m with
  | anthropic =>
    simp only [activeB] at h
    simp [tasks, h, traceFor]
  | openai =>
    simp only [activeB] at h
    simp [tasks, h, traceFor]
  | google =>
    simp only [activeB] at h
    simp [tasks, h, traceFor]
  | cohere => simp [activeB] at h

/-- Unpacking of `canEmitB`: the handler reached streaming, every event of the
stream belongs to a launched provider, and the subsequence of each launched
provider is its task sequence. -/
theorem canEmit_spec {req : Request} {w : World} {out : List NdjsonEvent}
    (h : canEmitB req w out = true) :
    handler req w = .streamed (tasks req w) ∧
    (∀ e ∈ out, activeB req e.model = true) ∧
    (∀ m, activeB req m = true →
      out.filter (fun e => decide (e.model = m)) = traceFor w m) := by
  unfold canEmitB at h
  split at h
  case h_2 => exact absurd h (by simp)
  case h_1 ts hts =>
    have hts' : ts = tasks req w := handler_streamed hts
    subst hts'
    rw [Bool.and_eq_true] at h
    obtain ⟨h1, h2⟩ := h
    refine ⟨hts, ?_, ?_⟩
    · intro e he
      rw [List.all_eq_true] at h1
      have := h1 e he
      rw [List.any_eq_true] at this
      obtain ⟨p, hp, hep⟩ := this
      have hem : e.model = p.1 := of_decide_eq_true hep
      rw [hem]
      exact (mem_tasks_active hp).1
    · intro m hm
      rw [List.all_eq_true] at h2
      have := h2 (m, traceFor w m) (active_mem_tasks w hm)
      exact of_decide_eq_true this

/-- Shape of every launched task sequence: one `start`, the `delta` events of
the accepted chunks, then exactly one terminal, which is `end` or `error`. -/
theorem trace_shape {req : Request} (w : World) {m : ModelKey}
    (hm : activeB req m = true) :
    ∃ (ds : List String) (term : NdjsonEvent),
      traceFor w m = startEv m :: (ds.map (deltaEv m) ++ [term]) ∧
      (term = endEv m ∨ ∃ msg, term = errEv m msg) := by
  cases m with
  | anthropic =>
    refine ⟨(w.anthropic.events.filterMap anthropicDeltaText), anthropicFinal w.anthropic, rfl, ?_⟩
    unfold anthropicFinal
    cases w.anthropic.failure with
    | none => exact Or.inl rfl
    | some e => exact Or.inr ⟨_, rfl⟩
  | openai =>
    refine ⟨(w.openai.parts.filterMap openaiDeltaText), openaiFinal w.openai, rfl, ?_⟩
    unfold openaiFinal
    cases w.openai.failure with
    | none => exact Or.inl rfl
    | some e => exact Or.inr ⟨_, rfl⟩
  | google =>
    refine ⟨(w.google.chunks.filterMap googleDeltaText), googleFinal w.google, rfl, ?_⟩
    unfold googleFinal
    cases w.google.failure with
    | none => exact Or.inl rfl
    | some e => exact Or.inr ⟨_, rfl⟩
  | cohere => simp [activeB] at hm


/-! ### Concrete witness scenarios (server) -/

/-- A request with only the Anthropic credential set. -/
def reqAnth : Request := ⟨"POST", some "2+2?", some ⟨some "k", none, none⟩⟩

/-- A request with Anthropic and OpenAI credentials set. -/
def reqAnthOpenai : Request := ⟨"POST", some "2+2?", some ⟨some "k", some "k", none⟩⟩

/-- A request with only the OpenAI credential set. -/
def reqOpenai : Request := ⟨"POST", some "2+2?", some ⟨none, some "k", none⟩⟩

/-- A request with an Anthropic credential and a whitespace-only OpenAI
credential. -/
def reqAnthWsOpenai : Request := ⟨"POST", some "2+2?", some ⟨some "k", some "   ", none⟩⟩

/-- A world where Anthropic delivers one text chunk and completes and the
other upstreams complete without chunks. -/
def wAnthOk : World :=
  ⟨⟨[⟨"content_block_delta", some ⟨"text_delta", some "4"⟩⟩], none⟩, ⟨[], none⟩, ⟨[], none⟩⟩

/-- A world where Anthropic delivers one text chunk and completes while the
OpenAI upstream throws a plain error before any chunk. -/
def wAnthOkOpenaiBoom : World :=
  ⟨⟨[⟨"content_block_delta", some ⟨"text_delta", some "4"⟩⟩], none⟩,
    ⟨[], some ⟨some "boom", none, none⟩⟩, ⟨[], none⟩⟩

/-- A world where the OpenAI upstream fails immediately with HTTP 429. -/
def wOpenai429 : World :=
  ⟨⟨[], none⟩, ⟨[], some ⟨some "Too Many Requests", some 429, none⟩⟩, ⟨[], none⟩⟩

/-- The canonical stream of `wAnthOk` with only Anthropic active. -/
def outAnthOk : List NdjsonEvent :=
  [startEv .anthropic, deltaEv .anthropic "4", endEv .anthropic]

/-- A possible stream of `wAnthOkOpenaiBoom` with Anthropic and OpenAI
active: the Anthropic events followed by the OpenAI events. -/
def outAnthOkOpenaiBoom : List NdjsonEvent :=
  outAnthOk ++ [startEv .openai, errEv .openai "boom"]

/-- The canonical stream of `wOpenai429` with only OpenAI active. -/
def outOpenai429 : List NdjsonEvent :=
  [startEv .openai, errEv .openai openaiQuotaMessage]

/-! ### Server-side claims -/

/-- C1: for every request with a non-empty prompt and at least one active
provider, every possible response stream contains, for each active provider
`m`, exactly one `start` event, followed by zero or more `delta` events,
followed by exactly one terminal event which is `end` xor `error` (never
both, never neither, and never an `end` after an `error`): the subsequence of
`out` tagged `m` is `start`, then deltas, then a single terminal, the
terminal is `end` or `error` but not both, and the projection carries exactly
one `start` and exactly one terminal event. -/
theorem per_provider_stream_shape (req : Request) (w : World) (out : List NdjsonEvent)
    (m : ModelKey) (h : canEmitB req w out = true) (hm : activeB req m = true) :
    ∃ (ds : List String) (term : NdjsonEvent),
      out.filter (fun e => decide (e.model = m)) = startEv m :: (ds.map (deltaEv m) ++ [term]) ∧
      (term = endEv m ∨ ∃ msg, term = errEv m msg) ∧
      ¬(term = endEv m ∧ ∃ msg, term = errEv m msg) ∧
      (out.filter (fun e => decide (e.model = m))).countP (fun e => decide (e.type = .start)) = 1 ∧
      (out.filter (fun e => decide (e.model = m))).countP
        (fun e => decide (e.type = .end_) || decide (e.type = .error)) = 1 := by
  have hfil := (canEmit_spec h).2.2 m hm
  obtain ⟨ds, term, hshape, hterm⟩ := trace_shape w hm
  refine ⟨ds, term, by rw [hfil, hshape], hterm, ?_, ?_, ?_⟩
  · rintro ⟨h1, msg, h2⟩
    subst h1
    simp [endEv, errEv] at h2
  · rw [hfil, hshape]
    rcases hterm with h1 | ⟨msg, h1⟩ <;> subst h1 <;>
      simp [List.countP_cons, List.countP_append, List.countP_map, Function.comp,
        startEv, deltaEv, endEv, errEv]
  · rw [hfil, hshape]
    rcases hterm with h1 | ⟨msg, h1⟩ <;> subst h1 <;>
      simp [List.countP_cons, List.countP_append, List.countP_map, Function.comp,
        startEv, deltaEv, endEv, errEv]

/-- Witness for C1: one active provider (Anthropic) whose upstream delivers
one text chunk and completes; its canonical stream satisfies the shape. -/
theorem per_provider_stream_shape_witness :
    (canEmitB reqAnth wAnthOk outAnthOk = true) ∧
    (activeB reqAnth .anthropic = true) ∧
    (∃ (ds : List String) (term : NdjsonEvent),
      outAnthOk.filter (fun e => decide (e.model = ModelKey.anthropic)) =
        startEv .anthropic :: (ds.map (deltaEv .anthropic) ++ [term]) ∧
      (term = endEv .anthropic ∨ ∃ msg, term = errEv .anthropic msg) ∧
      ¬(term = endEv .anthropic ∧ ∃ msg, term = errEv .anthropic msg) ∧
      (outAnthOk.filter (fun e => decide (e.model = ModelKey.anthropic))).countP
        (fun e => decide (e.type = .start)) = 1 ∧
      (outAnthOk.filter (fun e => decide (e.model = ModelKey.anthropic))).countP
        (fun e => decide (e.type = .end_) || decide (e.type = .error)) = 1) :=
  ⟨by decide, by decide,
    per_provider_stream_shape reqAnth wAnthOk outAnthOk .anthropic (by decide) (by decide)⟩

/-- C9 (implicit): each task writes its `start` before constructing the
provider client or issuing the upstream call, so in every possible response
stream an `error` event is strictly preceded by the `start` event of the same
model, even when the upstream call failed before producing any chunk. -/
theorem error_preceded_by_start (req : Request) (w : World) (out : List NdjsonEvent)
    (h : canEmitB req w out = true) :
    ∀ (l₁ : List NdjsonEvent) (e : NdjsonEvent) (l₂ : List NdjsonEvent),
      out = l₁ ++ e :: l₂ → e.type = .error → startEv e.model ∈ l₁ := by
  intro l₁ e l₂ hout he
  have hact : activeB req e.model = true := by
    refine (canEmit_spec h).2.1 e ?_
    rw [hout]
    exact List.mem_append.2 (Or.inr (List.mem_cons_self _ _))
  have hfil := (canEmit_spec h).2.2 e.model hact
  obtain ⟨ds, term, hshape, _⟩ := trace_shape w hact
  have hcond : (fun e' : NdjsonEvent => decide (e'.model = e.model)) e = true := by simp
  rw [hout, List.filter_append, List.filter_cons, if_pos hcond, hshape] at hfil
  cases hl : l₁.filter (fun e' => decide (e'.model = e.model)) with
  | nil =>
    rw [hl, List.nil_append] at hfil
    have : e = startEv e.model := (List.cons.inj hfil).1
    rw [this] at he
    simp [startEv] at he
  | cons a as =>
    rw [hl, List.cons_append] at hfil
    have ha : a = startEv e.model := (List.cons.inj hfil).1
    have hmem : a ∈ l₁.filter (fun e' => decide (e'.model = e.model)) := by
      rw [hl]; exact List.mem_cons_self _ _
    rw [← ha]
    exact List.mem_of_mem_filter hmem

/-- Witness for C9: one active provider (OpenAI) failing immediately with a
recognised rate limit; the stream is `start` then `error`, and the `error` is
preceded by the `start`. -/
theorem error_preceded_by_start_witness :
    (canEmitB reqOpenai wOpenai429 outOpenai429 = true) ∧
    ((errEv .openai openaiQuotaMessage).type = .error) ∧
    startEv (errEv .openai openaiQuotaMessage).model ∈ [startEv .openai] :=
  ⟨by decide, by decide,
    error_preceded_by_start reqOpenai wOpenai429 outOpenai429 (by decide) [startEv .openai]
      (errEv .openai openaiQuotaMessage) [] rfl (by decide)⟩

/-- Agreement of two worlds on the upstream behaviour of one provider. -/
def sameUpstream (m : ModelKey) (w w' : World) : Prop :=
  match m with
  | .anthropic => w.anthropic = w'.anthropic
  | .openai => w.openai = w'.openai
  | .google => w.google = w'.google
  | .cohere => True

theorem traceFor_congr {m : ModelKey} {w w' : World} (h : sameUpstream m w w') :
    traceFor w' m = traceFor w m := by
  cases m <;> simp only [traceFor, sameUpstream] at * <;> rw [h]

/-- C3: every possible response stream is complete - it contains, for every
launched provider, that full task sequence including its terminal event
(the stream is closed only after the `Promise.all` join barrier) - and the
events of one provider depend only on its own upstream behaviour: for any
world agreeing on the upstream of `m` (siblings may fail differently), the
subsequence tagged `m` of any possible stream is unchanged, so an error in a
sibling adapter never aborts the task of `m` or removes its terminal event. -/
theorem stream_join_barrier (req : Request) (w : World) (out : List NdjsonEvent)
    (m : ModelKey) (h : canEmitB req w out = true) (hm : activeB req m = true) :
    out.filter (fun e => decide (e.model = m)) = traceFor w m ∧
    (∃ term ∈ out, term.model = m ∧ (term.type = .end_ ∨ term.type = .error)) ∧
    (∀ (w' : World) (out' : List NdjsonEvent), sameUpstream m w w' →
      canEmitB req w' out' = true →
      out'.filter (fun e => decide (e.model = m)) =
        out.filter (fun e => decide (e.model = m))) := by
  have hfil := (canEmit_spec h).2.2 m hm
  refine ⟨hfil, ?_, ?_⟩
  · obtain ⟨ds, term, hshape, hterm⟩ := trace_shape w hm
    refine ⟨term, ?_, ?_, ?_⟩
    · have hmem : term ∈ out.filter (fun e => decide (e.model = m)) := by
        rw [hfil, hshape]
        exact List.mem_cons_of_mem _ (List.mem_append.2 (Or.inr (List.mem_singleton.2 rfl)))
      exact List.mem_of_mem_filter hmem
    · rcases hterm with h1 | ⟨msg, h1⟩ <;> subst h1 <;> simp [endEv, errEv]
    · rcases hterm with h1 | ⟨msg, h1⟩ <;> subst h1 <;> simp [endEv, errEv]
  · intro w' out' hsame h'
    have hfil' := (canEmit_spec h').2.2 m hm
    rw [hfil, hfil', traceFor_congr hsame]

/-- Witness for C3: Anthropic succeeds while OpenAI fails; the concatenated
stream is a possible stream, Anthropic is active, and the conclusion holds:
the Anthropic projection is its full task sequence, its terminal event is in
the stream, and the projection is stable under sibling changes. -/
theorem stream_join_barrier_witness :
    (canEmitB reqAnthOpenai wAnthOkOpenaiBoom outAnthOkOpenaiBoom = true) ∧
    (activeB reqAnthOpenai .anthropic = true) ∧
    (outAnthOkOpenaiBoom.filter (fun e => decide (e.model = ModelKey.anthropic)) =
        traceFor wAnthOkOpenaiBoom .anthropic ∧
      (∃ term ∈ outAnthOkOpenaiBoom, term.model = ModelKey.anthropic ∧
        (term.type = .end_ ∨ term.type = .error)) ∧
      (∀ (w' : World) (out' : List NdjsonEvent), sameUpstream .anthropic wAnthOkOpenaiBoom w' →
        canEmitB reqAnthOpenai w' out' = true →
        out'.filter (fun e => decide (e.model = ModelKey.anthropic)) =
          outAnthOkOpenaiBoom.filter (fun e => decide (e.model = ModelKey.anthropic)))) :=
  ⟨by decide, by decide,
    stream_join_barrier reqAnthOpenai wAnthOkOpenaiBoom outAnthOkOpenaiBoom .anthropic
      (by decide) (by decide)⟩

/-- C7: a provider whose credential is missing or empty after trimming is
silently skipped - no task is launched for it and no event tagged with it
appears anywhere in any possible response stream (in particular no `error`
event reports its absence). -/
theorem inactive_provider_skipped (req : Request) (w : World) (out : List NdjsonEvent)
    (m : ModelKey) (h : canEmitB req w out = true) (hm : activeB req m = false) :
    (∀ p ∈ tasks req w, p.1 ≠ m) ∧ (∀ e ∈ out, e.model ≠ m) := by
  constructor
  · intro p hp hpm
    have hx := (mem_tasks_active hp).1
    rw [hpm, hm] at hx
    exact Bool.false_ne_true hx
  · intro e he hem
    have hx := (canEmit_spec h).2.1 e he
    rw [hem, hm] at hx
    exact Bool.false_ne_true hx

/-- Witness for C7: provider A (Anthropic, credential set) and provider B
(OpenAI, whitespace-only credential): no task is launched for OpenAI and the
stream carries no OpenAI event. -/
theorem inactive_provider_skipped_witness :
    (canEmitB reqAnthWsOpenai wAnthOk outAnthOk = true) ∧
    (activeB reqAnthWsOpenai .openai = false) ∧
    ((∀ p ∈ tasks reqAnthWsOpenai wAnthOk, p.1 ≠ ModelKey.openai) ∧
      (∀ e ∈ outAnthOk, e.model ≠ ModelKey.openai)) :=
  ⟨by decide, by decide,
    inactive_provider_skipped reqAnthWsOpenai wAnthOk outAnthOk .openai
      (by decide) (by decide)⟩

/-- Counterexample to C4 as stated: the handler checks `!prompt` without
trimming, so the whitespace-only prompt `" "` - which is empty after
trimming - is NOT rejected: the handler streams and launches tasks. -/
theorem whitespace_prompt_not_rejected :
    ((⟨"POST", some " ", some ⟨some "k", none, none⟩⟩ : Request).prompt = some " ") ∧
    jsTrim " " = "" ∧
    handler ⟨"POST", some " ", some ⟨some "k", none, none⟩⟩ wAnthOk =
      .streamed (tasks ⟨"POST", some " ", some ⟨some "k", none, none⟩⟩ wAnthOk) ∧
    handler ⟨"POST", some " ", some ⟨some "k", none, none⟩⟩ wAnthOk ≠
      .response 400 "Missing prompt" := by
  decide

/-- C4 (amended): for every POST request, the handler rejects with HTTP 400
and body with error string `Missing prompt` exactly when the prompt is
missing or is the empty string (no trimming is applied); in the rejection
case no stream is opened and no task is launched, and for every other prompt
no such rejection occurs. -/
theorem missing_prompt_rejection (req : Request) (w : World) (h : req.method = "POST") :
    (handler req w = .response 400 "Missing prompt" ↔
      (req.prompt = none ∨ req.prompt = some "")) ∧
    ((req.prompt = none ∨ req.prompt = some "") →
      ∀ ts, handler req w ≠ .streamed ts) := by
  have hmethod : ¬(req.method ≠ "POST") := by rw [h]; simp
  unfold handler
  rw [if_neg hmethod]
  cases hp : req.prompt with
  | none => simp
  | some p =>
    by_cases hpe : p = ""
    · subst hpe
      simp
    · simp [hpe]

/-- Witness for the amended C4: a POST request with a missing prompt is
rejected and never streamed. -/
theorem missing_prompt_rejection_witness :
    ((⟨"POST", none, some ⟨some "k", none, none⟩⟩ : Request).method = "POST") ∧
    ((handler ⟨"POST", none, some ⟨some "k", none, none⟩⟩ wAnthOk =
        .response 400 "Missing prompt" ↔
      ((⟨"POST", none, some ⟨some "k", none, none⟩⟩ : Request).prompt = none ∨
        (⟨"POST", none, some ⟨some "k", none, none⟩⟩ : Request).prompt = some "")) ∧
     (((⟨"POST", none, some ⟨some "k", none, none⟩⟩ : Request).prompt = none ∨
        (⟨"POST", none, some ⟨some "k", none, none⟩⟩ : Request).prompt = some "") →
      ∀ ts, handler ⟨"POST", none, some ⟨some "k", none, none⟩⟩ wAnthOk ≠ .streamed ts)) :=
  ⟨rfl, missing_prompt_rejection ⟨"POST", none, some ⟨some "k", none, none⟩⟩ wAnthOk rfl⟩

/-- Counterexample to C5 as stated: the 429 rewrite exists only in the OpenAI
catch block.  The Anthropic adapter, failing with a recognised rate-limit
condition (status 429) and raw message `Too Many Requests`, emits an `error`
event whose message IS the raw upstream message, not a rewritten one. -/
theorem anthropic_rate_limit_passthrough :
    anthropicTrace ⟨[], some ⟨some "Too Many Requests", some 429, none⟩⟩ =
      [startEv .anthropic, errEv .anthropic "Too Many Requests"] ∧
    (errEv .anthropic "Too Many Requests").error = some "Too Many Requests" := by
  decide

/-- C5 (amended): only the OpenAI adapter recognises the rate-limit
condition: when its upstream call fails with HTTP status 429 (on `status` or
`statusCode`), the emitted `error` event carries the fixed actionable quota
message, independent of the raw upstream message, and therefore distinct from
every raw message other than that constant; the Anthropic and Google adapters
pass the raw upstream message through unchanged. -/
theorem openai_rate_limit_rewritten (u : OpenAIUpstream) (e : JsError)
    (hf : u.failure = some e) (h429 : e.status = some 429 ∨ e.statusCode = some 429) :
    openaiTrace u = startEv .openai ::
      ((u.parts.filterMap openaiDeltaText).map (deltaEv .openai) ++
        [errEv .openai openaiQuotaMessage]) ∧
    (∀ raw, e.message = some raw → raw ≠ openaiQuotaMessage →
      (errEv .openai (openaiErrMsg e)).error ≠ some raw) := by
  have hmsg : openaiErrMsg e = openaiQuotaMessage := by
    unfold openaiErrMsg
    rw [if_pos h429]
  constructor
  · simp only [openaiTrace, openaiFinal, hf, hmsg]
  · intro raw _ hraw
    rw [hmsg]
    simp [errEv]
    exact fun hc => hraw hc.symm

/-- Witness for the amended C5: an OpenAI upstream failure with status 429
and raw message `Too Many Requests`; the trace ends with the fixed quota
message and that message differs from the raw one. -/
theorem openai_rate_limit_rewritten_witness :
    ((⟨[], some ⟨some "Too Many Requests", some 429, none⟩⟩ : OpenAIUpstream).failure =
      some ⟨some "Too Many Requests", some 429, none⟩) ∧
    ((⟨some "Too Many Requests", some 429, none⟩ : JsError).status = some 429 ∨
      (⟨some "Too Many Requests", some 429, none⟩ : JsError).statusCode = some 429) ∧
    (openaiTrace ⟨[], some ⟨some "Too Many Requests", some 429, none⟩⟩ = startEv .openai ::
      ((([] : List OpenAIPart).filterMap openaiDeltaText).map (deltaEv .openai) ++
        [errEv .openai openaiQuotaMessage]) ∧
    (∀ raw, (⟨some "Too Many Requests", some 429, none⟩ : JsError).message = some raw →
      raw ≠ openaiQuotaMessage →
      (errEv .openai (openaiErrMsg ⟨some "Too Many Requests", some 429, none⟩)).error ≠
        some raw)) :=
  ⟨rfl, Or.inl rfl,
    openai_rate_limit_rewritten ⟨[], some ⟨some "Too Many Requests", some 429, none⟩⟩
      ⟨some "Too Many Requests", some 429, none⟩ rfl (Or.inl rfl)⟩

/-! ### Helper lemmas: client -/

theorem applyEvent_meta (s : ClientState) (e : NdjsonEvent) :
    (applyEvent s e).evaluatorRan = s.evaluatorRan ∧
    (applyEvent s e).evaluatorLoading = s.evaluatorLoading ∧
    (applyEvent s e).evaluatorResult = s.evaluatorResult := by
  unfold applyEvent
  rcases e with ⟨m, ty, tx, er⟩
  cases ty <;> dsimp only
  · exact ⟨rfl, rfl, rfl⟩
  · cases tx with
    | none => exact ⟨rfl, rfl, rfl⟩
    | some t =>
      by_cases ht : t = ""
      · simp [if_pos ht]
      · simp [if_neg ht]
  · exact ⟨rfl, rfl, rfl⟩
  · cases er with
    | none => exact ⟨rfl, rfl, rfl⟩
    | some msg =>
      by_cases hm : msg = ""
      · simp [if_pos hm]
      · simp [if_neg hm]

theorem evalFire_ran (ks : ApiKeys) (s : ClientState) :
    (evalFire ks s).evaluatorRan = true := by
  unfold evalFire
  cases evalTarget ks s <;> rfl

/-- Once the one-shot flag is set, the remainder of the run fires no trigger
and issues no evaluation request. -/
theorem runEvents_of_ran (ks : ApiKeys) (evs : List NdjsonEvent) :
    ∀ s : ClientState, s.evaluatorRan = true →
      (runEvents ks s evs).fires = 0 ∧ (runEvents ks s evs).requests = [] := by
  induction evs with
  | nil => intro s _; exact ⟨rfl, rfl⟩
  | cons e rest ih =>
    intro s hs
    have hran : (applyEvent s e).evaluatorRan = true := by
      rw [(applyEvent_meta s e).1]; exact hs
    have hcond : triggerCond ks (applyEvent s e) = false := by
      unfold triggerCond
      rw [hran]
      simp
    simp only [runEvents]
    rw [hcond]
    simp only [Bool.false_eq_true, if_false]
    exact ih _ hran

/-- The trigger fires at most once over any run. -/
theorem runEvents_fires_le_one (ks : ApiKeys) (evs : List NdjsonEvent) :
    ∀ s : ClientState, (runEvents ks s evs).fires ≤ 1 := by
  induction evs with
  | nil => intro s; exact Nat.zero_le 1
  | cons e rest ih =>
    intro s
    simp only [runEvents]
    split
    · have h0 := (runEvents_of_ran ks rest _ (evalFire_ran ks (applyEvent s e))).1
      simp only [h0]
      omega
    · exact ih _

/-- If the status condition is observed to hold after some prefix of the run
starting from a state where the flags are clear and the condition does not
yet hold, then the full run fires at least once. -/
theorem runEvents_reach (ks : ApiKeys) (evs : List NdjsonEvent) :
    ∀ (s : ClientState) (n : Nat), s.evaluatorRan = false → s.evaluatorLoading = false →
      triggerBase ks s = false →
      triggerBase ks ((runEvents ks s (evs.take n)).state) = true →
      1 ≤ (runEvents ks s evs).fires := by
  induction evs with
  | nil =>
    intro s n _ _ hbase hreach
    rw [List.take_nil] at hreach
    simp only [runEvents] at hreach
    rw [hbase] at hreach
    exact absurd hreach (by simp)
  | cons e rest ih =>
    intro s n h1 h2 hbase hreach
    cases n with
    | zero =>
      rw [List.take_zero] at hreach
      simp only [runEvents] at hreach
      rw [hbase] at hreach
      exact absurd hreach (by simp)
    | succ n' =>
      rw [List.take_succ_cons] at hreach
      simp only [runEvents] at hreach ⊢
      by_cases hc : triggerCond ks (applyEvent s e) = true
      · rw [if_pos hc]
        exact Nat.le_add_left 1 _
      · rw [if_neg hc] at hreach ⊢
        have h1a : (applyEvent s e).evaluatorRan = false := by
          rw [(applyEvent_meta s e).1]; exact h1
        have h2a : (applyEvent s e).evaluatorLoading = false := by
          rw [(applyEvent_meta s e).2.1]; exact h2
        have hbase1 : triggerBase ks (applyEvent s e) = false := by
          unfold triggerCond at hc
          rw [h1a, h2a] at hc
          simp at hc
          exact hc
        exact ih _ n' h1a h2a hbase1 hreach

theorem applyEvent_status_ne_finished (s : ClientState) (e : NdjsonEvent) (k : ModelKey)
    (hk : s.modelStatus.get k ≠ .finished)
    (hend : e.type = .end_ → e.model ≠ k) :
    (applyEvent s e).modelStatus.get k ≠ .finished := by
  unfold applyEvent
  rcases e with ⟨m, ty, tx, er⟩
  cases ty <;> dsimp only
  · rw [KeyMap.get_set]
    split
    · simp
    · exact hk
  · cases tx with
    | none => exact hk
    | some t =>
      by_cases ht : t = ""
      · simp only [if_pos ht]
        exact hk
      · simp only [if_neg ht]
        exact hk
  · have hm : m ≠ k := hend rfl
    rw [KeyMap.get_set]
    rw [if_neg (fun hkm => hm hkm.symm)]
    exact hk
  · cases er with
    | none => exact hk
    | some msg =>
      by_cases hmsg : msg = ""
      · simp only [if_pos hmsg]
        exact hk
      · simp only [if_neg hmsg]
        rw [KeyMap.get_set]
        split
        · simp
        · exact hk

/-- If the incoming events contain no `end` event for any active provider,
then no active provider ever reaches `finished`, and the run fires no
trigger and issues no request. -/
theorem runEvents_no_finish (ks : ApiKeys) :
    ∀ (evs : List NdjsonEvent) (s : ClientState),
      (∀ e ∈ evs, e.type = .end_ → activeClientB ks e.model = false) →
      (∀ k ∈ availableKeys ks, s.modelStatus.get k ≠ .finished) →
      (runEvents ks s evs).fires = 0 ∧ (runEvents ks s evs).requests = [] := by
  intro evs
  induction evs with
  | nil => intro s _ _; exact ⟨rfl, rfl⟩
  | cons e rest ih =>
    intro s hnoend hinv
    have hinv1 : ∀ k ∈ availableKeys ks, (applyEvent s e).modelStatus.get k ≠ .finished := by
      intro k hk
      refine applyEvent_status_ne_finished s e k (hinv k hk) ?_
      intro hty hmk
      have hfalse := hnoend e (List.mem_cons_self _ _) hty
      rw [hmk] at hfalse
      have htrue : activeClientB ks k = true := List.of_mem_filter hk
      rw [htrue] at hfalse
      exact Bool.noConfusion hfalse
    have hany : ¬((availableKeys ks).any
        (fun k => decide ((applyEvent s e).modelStatus.get k = .finished)) = true) := by
      rw [List.any_eq_true]
      rintro ⟨k, hk, hfin⟩
      exact hinv1 k hk (of_decide_eq_true hfin)
    have hcond : triggerCond ks (applyEvent s e) = false := by
      unfold triggerCond triggerBase
      rw [Bool.eq_false_iff.2 hany]
      simp
    simp only [runEvents]
    rw [hcond]
    simp only [Bool.false_eq_true, if_false]
    exact ih _ (fun x hx => hnoend x (List.mem_cons_of_mem _ hx)) hinv1

theorem head_filterMap_guard {α β : Type} (p : α → Bool) (g : α → β) :
    ∀ l : List α,
      ((l.filterMap (fun a => if p a then some (a, g a) else none)).head?.map Prod.fst) =
        l.find? p := by
  intro l
  induction l with
  | nil => rfl
  | cons a as ih =>
    rw [List.filterMap_cons, List.find?_cons]
    by_cases hp : p a = true
    · simp [hp]
    · have hp2 : p a = false := Bool.eq_false_iff.2 hp
      simp only [hp2, Bool.false_eq_true, if_false]
      exact ih

theorem foldl_guard_filter {α β : Type} (p : α → Bool) (f : β → α → β) :
    ∀ (l : List α) (acc : β),
      l.foldl (fun a e => if p e then f a e else a) acc =
        (l.filter p).foldl (fun a e => if p e then f a e else a) acc := by
  intro l
  induction l with
  | nil => intro acc; rfl
  | cons e rest ih =>
    intro acc
    rw [List.filter_cons]
    by_cases hp : p e = true
    · rw [if_pos hp, List.foldl_cons, List.foldl_cons, if_pos hp]
      exact ih _
    · rw [if_neg hp, List.foldl_cons, if_neg hp]
      exact ih _

/-! ### Concrete witness scenarios (client) -/

/-- Client configuration with only the OpenAI key set. -/
def ksOpenaiOnly : ApiKeys := ⟨"", "k", ""⟩

/-- Client configuration with the Anthropic and OpenAI keys set. -/
def ksAnthOpenai : ApiKeys := ⟨"k", "k", ""⟩

/-- A terminal client state where OpenAI accumulated only whitespace and
Anthropic accumulated text, with no errors. -/
def stWsOpenai : ClientState :=
  ⟨⟨" ", "4", "", ""⟩, ⟨none, none, none, none⟩, "", false, false,
    ⟨.finished, .finished, .finished, .finished⟩⟩

/-- A terminal client state where every provider accumulated nothing. -/
def stAllEmpty : ClientState :=
  ⟨⟨"", "", "", ""⟩, ⟨none, none, none, none⟩, "", false, false,
    ⟨.finished, .finished, .finished, .finished⟩⟩

/-- A dirty client state left over from a previous run. -/
def stDirty : ClientState :=
  ⟨⟨"old", "old", "old", "old"⟩, ⟨some "e", none, none, none⟩, "old summary", true, true,
    ⟨.error, .finished, .streaming, .pending⟩⟩

/-! ### Client-side claims -/

/-- Counterexample to C2 as stated: with only OpenAI active, the events
`start` then `end` with no `delta` leave every accumulated text empty, yet
the trigger fires (once) - the code checks only that some active provider is
`finished`, not that it accumulated non-empty text.  No evaluation request is
issued, but the claimed firing condition is violated. -/
theorem evaluator_trigger_counterexample :
    (runEvents ksOpenaiOnly (resetState ksOpenaiOnly) [startEv .openai, endEv .openai]).fires
      = 1 ∧
    (runEvents ksOpenaiOnly (resetState ksOpenaiOnly)
      [startEv .openai, endEv .openai]).state.messages = ⟨"", "", "", ""⟩ ∧
    (runEvents ksOpenaiOnly (resetState ksOpenaiOnly)
      [startEv .openai, endEv .openai]).requests = [] := by
  decide

/-- C2 (amended): over one run cycle (events processed from the submit-time
reset state, with the evaluator effect re-run after every update), the
trigger fires at most once; if no active provider ever receives an `end`
event (in particular when every active provider terminates with `error`) it
never fires and no evaluation request is issued; and if after some prefix of
the run every active provider is terminal with at least one `finished`
(regardless of accumulated text), it fires exactly once, even though the
condition is re-observed on later status updates. -/
theorem evaluator_trigger_once (ks : ApiKeys) (evs : List NdjsonEvent)
    (hne : availableKeys ks ≠ []) :
    (runEvents ks (resetState ks) evs).fires ≤ 1 ∧
    ((∀ e ∈ evs, e.type = .end_ → activeClientB ks e.model = false) →
      (runEvents ks (resetState ks) evs).fires = 0 ∧
      (runEvents ks (resetState ks) evs).requests = []) ∧
    (∀ n : Nat,
      triggerBase ks ((runEvents ks (resetState ks) (evs.take n)).state) = true →
      (runEvents ks (resetState ks) evs).fires = 1) := by
  have hstat : ∀ k ∈ availableKeys ks, (resetState ks).modelStatus.get k = .pending := by
    intro k hk
    have hact : activeClientB ks k = true := List.of_mem_filter hk
    cases k <;> simp [resetState, KeyMap.get, hact]
  refine ⟨runEvents_fires_le_one ks evs _, ?_, ?_⟩
  · intro hnoend
    refine runEvents_no_finish ks evs _ hnoend ?_
    intro k hk
    rw [hstat k hk]
    simp
  · intro n hreach
    have hbase0 : triggerBase ks (resetState ks) = false := by
      obtain ⟨k, hk⟩ := List.exists_mem_of_ne_nil _ hne
      have hterm : ¬((availableKeys ks).all
          (fun k => terminalStatus ((resetState ks).modelStatus.get k)) = true) := by
        rw [List.all_eq_true]
        intro hcontra
        have hx := hcontra k hk
        rw [hstat k hk] at hx
        exact Bool.noConfusion hx
      have hallf := Bool.eq_false_iff.2 hterm
      unfold triggerBase
      rw [hallf]
      simp
    have h1 := runEvents_reach ks evs (resetState ks) n rfl rfl hbase0 hreach
    exact Nat.le_antisymm (runEvents_fires_le_one ks evs _) h1

/-- Witness for the amended C2: OpenAI active, a normal
`start`/`delta`/`end` run. -/
theorem evaluator_trigger_once_witness :
    availableKeys ksOpenaiOnly ≠ [] ∧
    ((runEvents ksOpenaiOnly (resetState ksOpenaiOnly)
        [startEv .openai, deltaEv .openai "4", endEv .openai]).fires ≤ 1 ∧
      ((∀ e ∈ [startEv .openai, deltaEv .openai "4", endEv .openai],
          e.type = .end_ → activeClientB ksOpenaiOnly e.model = false) →
        (runEvents ksOpenaiOnly (resetState ksOpenaiOnly)
          [startEv .openai, deltaEv .openai "4", endEv .openai]).fires = 0 ∧
        (runEvents ksOpenaiOnly (resetState ksOpenaiOnly)
          [startEv .openai, deltaEv .openai "4", endEv .openai]).requests = []) ∧
      (∀ n : Nat,
        triggerBase ksOpenaiOnly ((runEvents ksOpenaiOnly (resetState ksOpenaiOnly)
          ([startEv .openai, deltaEv .openai "4", endEv .openai].take n)).state) = true →
        (runEvents ksOpenaiOnly (resetState ksOpenaiOnly)
          [startEv .openai, deltaEv .openai "4", endEv .openai]).fires = 1)) :=
  ⟨by decide,
    evaluator_trigger_once ksOpenaiOnly
      [startEv .openai, deltaEv .openai "4", endEv .openai] (by decide)⟩

/-- Counterexample to C6 as stated: with OpenAI before Anthropic in the fixed
ordering, OpenAI error-free with the non-empty accumulated text of one space
and Anthropic error-free with text `4`, the first provider with no recorded
error and non-empty accumulated text is OpenAI, but the code targets
Anthropic: the filter uses the text trimmed, so whitespace-only text is
skipped. -/
theorem evaluator_target_counterexample :
    availableKeys ksAnthOpenai = [ModelKey.openai, ModelKey.anthropic] ∧
    stWsOpenai.errors.get .openai = none ∧
    stWsOpenai.messages.get .openai ≠ "" ∧
    claimFirstSuccessful ksAnthOpenai stWsOpenai = some .openai ∧
    evalTarget ksAnthOpenai stWsOpenai = some .anthropic := by
  decide

/-- C6 (amended): the evaluation request targets exactly the first provider,
in the original fixed ordering, that is active, has a JS-falsy recorded error
and has accumulated text that is non-empty after trimming; and the evaluation
stream consumer accumulates only `delta` events with truthy text whose model
tag equals that target - its result is unchanged under dropping all events of
other providers, and inserting an event of another provider anywhere changes
nothing. -/
theorem evaluator_target_first_valid (ks : ApiKeys) (s : ClientState) :
    evalTarget ks s = (availableKeys ks).find? (validPred s) ∧
    (∀ (t : ModelKey) (evs : List NdjsonEvent),
      evalAccumulate t evs = evalAccumulate t (evs.filter
        (fun e => decide (e.type = .delta) && jsTruthy e.text && decide (e.model = t)))) ∧
    (∀ (t : ModelKey) (e : NdjsonEvent) (evs₁ evs₂ : List NdjsonEvent), e.model ≠ t →
      evalAccumulate t (evs₁ ++ e :: evs₂) = evalAccumulate t (evs₁ ++ evs₂)) := by
  refine ⟨?_, ?_, ?_⟩
  · unfold evalTarget validResponses
    exact head_filterMap_guard (validPred s) (fun k => s.messages.get k) (availableKeys ks)
  · intro t evs
    exact foldl_guard_filter
      (fun e => decide (e.type = .delta) && jsTruthy e.text && decide (e.model = t))
      (fun a e => a ++ e.text.getD "") evs ""
  · intro t e evs₁ evs₂ h
    unfold evalAccumulate
    rw [List.foldl_append, List.foldl_append, List.foldl_cons]
    have hd : decide (e.model = t) = false := decide_eq_false h
    rw [if_neg (by rw [hd]; simp)]

/-- Witness for the amended C6: the target in the whitespace scenario agrees
with the first valid provider, and an Anthropic delta inserted into an
evaluation stream targeted at OpenAI contributes nothing. -/
theorem evaluator_target_first_valid_witness :
    evalTarget ksAnthOpenai stWsOpenai = (availableKeys ksAnthOpenai).find? (validPred stWsOpenai) ∧
    (deltaEv .anthropic "x").model ≠ ModelKey.openai ∧
    evalAccumulate .openai ([deltaEv .openai "a"] ++ deltaEv .anthropic "x" :: [deltaEv .openai "b"]) =
      evalAccumulate .openai ([deltaEv .openai "a"] ++ [deltaEv .openai "b"]) :=
  ⟨(evaluator_target_first_valid ksAnthOpenai stWsOpenai).1,
    by decide,
    (evaluator_target_first_valid ksAnthOpenai stWsOpenai).2.2 .openai (deltaEv .anthropic "x")
      [deltaEv .openai "a"] [deltaEv .openai "b"] (by decide)⟩

/-- C8: submitting a prompt that is non-empty after trimming, from any prior
client state, resets - before the new stream is consumed - every accumulated
text to empty, every recorded error to null, the evaluator result, loading
and one-shot flags to their initial values, and every per-provider status to
`pending` for active providers and `finished` for inactive providers,
independently of the prior state. -/
theorem submit_resets_state (s : ClientState) (p : String) (ks : ApiKeys)
    (h : jsTrim p ≠ "") :
    (onSubmit s p ks).messages = ⟨"", "", "", ""⟩ ∧
    (onSubmit s p ks).errors = ⟨none, none, none, none⟩ ∧
    (onSubmit s p ks).evaluatorResult = "" ∧
    (onSubmit s p ks).evaluatorLoading = false ∧
    (onSubmit s p ks).evaluatorRan = false ∧
    ∀ k, (onSubmit s p ks).modelStatus.get k =
      if activeClientB ks k then .pending else .finished := by
  unfold onSubmit
  rw [if_neg h]
  refine ⟨rfl, rfl, rfl, rfl, rfl, ?_⟩
  intro k
  cases k <;> rfl

/-- Witness for C8: resubmitting the prompt `2+2?` from a dirty prior state
resets everything. -/
theorem submit_resets_state_witness :
    jsTrim "2+2?" ≠ "" ∧
    ((onSubmit stDirty "2+2?" ksOpenaiOnly).messages = ⟨"", "", "", ""⟩ ∧
      (onSubmit stDirty "2+2?" ksOpenaiOnly).errors = ⟨none, none, none, none⟩ ∧
      (onSubmit stDirty "2+2?" ksOpenaiOnly).evaluatorResult = "" ∧
      (onSubmit stDirty "2+2?" ksOpenaiOnly).evaluatorLoading = false ∧
      (onSubmit stDirty "2+2?" ksOpenaiOnly).evaluatorRan = false ∧
      ∀ k, (onSubmit stDirty "2+2?" ksOpenaiOnly).modelStatus.get k =
        if activeClientB ksOpenaiOnly k then .pending else .finished) :=
  ⟨by decide, submit_resets_state stDirty "2+2?" ksOpenaiOnly (by decide)⟩

/-- C10 (implicit): if the trigger fires in a state where every active
provider with a JS-falsy recorded error has only empty-after-trim accumulated
text, then `evaluateResults` returns without issuing a request: the target is
`none`, the summary text and loading flag are unchanged (so no fallback
message appears), the one-shot flag is consumed, and no fire or evaluation
request happens for the remainder of the run cycle. -/
theorem empty_success_no_evaluation (ks : ApiKeys) (s : ClientState)
    (_hc : triggerCond ks s = true)
    (hempty : ∀ k ∈ availableKeys ks, jsTruthy (s.errors.get k) = false →
      jsTrim (s.messages.get k) = "") :
    evalTarget ks s = none ∧
    (evalFire ks s).evaluatorResult = s.evaluatorResult ∧
    (evalFire ks s).evaluatorLoading = s.evaluatorLoading ∧
    (evalFire ks s).evaluatorRan = true ∧
    (∀ evs : List NdjsonEvent,
      (runEvents ks (evalFire ks s) evs).fires = 0 ∧
      (runEvents ks (evalFire ks s) evs).requests = []) := by
  have hvr : validResponses ks s = [] := by
    unfold validResponses
    rw [List.filterMap_eq_nil_iff]
    intro k hk
    have hvp : validPred s k = false := by
      unfold validPred
      cases hjt : jsTruthy (s.errors.get k) with
      | false =>
        have hm := hempty k hk hjt
        rw [hm]
        simp
      | true => simp
    simp [hvp]
  have ht : evalTarget ks s = none := by
    unfold evalTarget
    rw [hvr]
    rfl
  have hfire : evalFire ks s = { s with evaluatorRan := true } := by
    unfold evalFire
    rw [ht]
  refine ⟨ht, by rw [hfire], by rw [hfire], by rw [hfire], ?_⟩
  intro evs
  exact runEvents_of_ran ks evs _ (by rw [hfire])

/-- Witness for C10: only OpenAI active, terminal with empty text and no
error; the trigger condition holds, the emptiness hypothesis holds, and the
conclusion follows. -/
theorem empty_success_no_evaluation_witness :
    triggerCond ksOpenaiOnly stAllEmpty = true ∧
    (∀ k ∈ availableKeys ksOpenaiOnly, jsTruthy (stAllEmpty.errors.get k) = false →
      jsTrim (stAllEmpty.messages.get k) = "") ∧
    (evalTarget ksOpenaiOnly stAllEmpty = none ∧
      (evalFire ksOpenaiOnly stAllEmpty).evaluatorResult = stAllEmpty.evaluatorResult ∧
      (evalFire ksOpenaiOnly stAllEmpty).evaluatorLoading = stAllEmpty.evaluatorLoading ∧
      (evalFire ksOpenaiOnly stAllEmpty).evaluatorRan = true ∧
      (∀ evs : List NdjsonEvent,
        (runEvents ksOpenaiOnly (evalFire ksOpenaiOnly stAllEmpty) evs).fires = 0 ∧
        (runEvents ksOpenaiOnly (evalFire ksOpenaiOnly stAllEmpty) evs).requests = [])) :=
  ⟨by decide, by decide,
    empty_success_no_evaluation ksOpenaiOnly stAllEmpty (by decide) (by decide)⟩

end CrossRef
